import Mathlib

/-!
# db-controller: the provisioning client `pkg/dbclient/dbClient.go`

A shallow embedding of the PostgreSQL provisioning client and of the
connection-string builder, together with the properties of the design
document that concern them.

## Strings

A Go `string` is a sequence of bytes.  `escapeValue` walks its argument with
`for _, c := range in`, which decodes UTF-8 (an invalid byte yields the rune
U+FFFD and advances by one byte), and converts the collected `[]rune` back with
`string(encoded)`, which encodes every rune as UTF-8.  Both directions are
embedded below (`decoderune`, `encoderune`), bytes and runes being natural
numbers.  The bit operations of the Go runtime are written arithmetically:
`b & 0x3F` is `b % 64`, `r >> 6` is `r / 64`, `x << 6` is `x * 64`, and an
`|` of disjoint bit fields is a sum.
-/

namespace DbController

/-! ## Go strings and UTF-8 -/

/-- A Go string: its bytes, each in `0 .. 255`. -/
abbrev GoString := List Nat

/-- The rune `utf8.RuneError`, U+FFFD. -/
def RuneError : Nat := 0xFFFD

/-- A continuation byte: `locb <= b && b <= hicb`. -/
def isCont (b : Nat) : Bool := decide (0x80 ≤ b) && decide (b ≤ 0xBF)

/-- The Go runtime's `decoderune(s, 0)`: the rune that starts the string and
the number of bytes it takes.  An ill-formed sequence decodes to
`(RuneError, 1)`. -/
def decoderune (s : GoString) : Nat × Nat :=
  match s with
  | [] => (RuneError, 1)
  | b0 :: t =>
    if 0xC0 ≤ b0 ∧ b0 < 0xE0 then
      -- 0080-07FF two byte sequence
      match t with
      | b1 :: _ =>
        if isCont b1 then
          let r := (b0 % 32) * 64 + b1 % 64
          if 0x7F < r then (r, 2) else (RuneError, 1)
        else (RuneError, 1)
      | _ => (RuneError, 1)
    else if 0xE0 ≤ b0 ∧ b0 < 0xF0 then
      -- 0800-FFFF three byte sequence
      match t with
      | b1 :: b2 :: _ =>
        if isCont b1 && isCont b2 then
          let r := (b0 % 16) * 4096 + (b1 % 64) * 64 + b2 % 64
          if 0x7FF < r ∧ ¬ (0xD800 ≤ r ∧ r ≤ 0xDFFF) then (r, 3) else (RuneError, 1)
        else (RuneError, 1)
      | _ => (RuneError, 1)
    else if 0xF0 ≤ b0 ∧ b0 < 0xF8 then
      -- 10000-1FFFFF four byte sequence
      match t with
      | b1 :: b2 :: b3 :: _ =>
        if isCont b1 && isCont b2 && isCont b3 then
          let r := (b0 % 8) * 262144 + (b1 % 64) * 4096 + (b2 % 64) * 64 + b3 % 64
          if 0xFFFF < r ∧ r ≤ 0x10FFFF then (r, 4) else (RuneError, 1)
        else (RuneError, 1)
      | _ => (RuneError, 1)
    else (RuneError, 1)

/-- The loop `for _, c := range s`, with `fuel` bounding the number of
iterations: a byte below `0x80` is its own rune, anything else goes through
`decoderune`, and the index advances by the width decoded. -/
def rangeRunesAux : Nat → GoString → List Nat
  | 0, _ => []
  | _, [] => []
  | fuel + 1, b0 :: t =>
    if b0 < 0x80 then b0 :: rangeRunesAux fuel t
    else (decoderune (b0 :: t)).1 :: rangeRunesAux fuel ((b0 :: t).drop (decoderune (b0 :: t)).2)

/-- The runes `for _, c := range s` yields, in order.  Every iteration consumes
at least one byte, so `s.length` iterations always suffice. -/
def rangeRunes (s : GoString) : List Nat := rangeRunesAux s.length s

/-- The Go runtime's `encoderune`: the UTF-8 bytes of a rune; a surrogate or a
value above U+10FFFF is written as U+FFFD. -/
def encoderune (r : Nat) : GoString :=
  if r ≤ 0x7F then [r]
  else if r ≤ 0x7FF then [0xC0 + r / 64, 0x80 + r % 64]
  else if 0x10FFFF < r ∨ (0xD800 ≤ r ∧ r ≤ 0xDFFF) then [0xEF, 0xBF, 0xBD]
  else if r ≤ 0xFFFF then [0xE0 + r / 4096, 0x80 + (r / 64) % 64, 0x80 + r % 64]
  else [0xF0 + r / 262144, 0x80 + (r / 4096) % 64, 0x80 + (r / 64) % 64, 0x80 + r % 64]

/-- The conversion `string(runes)` of a `[]rune`. -/
def runesToString (runes : List Nat) : GoString := runes.flatMap encoderune

/-- The bytes of a text: the UTF-8 encoding of a sequence of Unicode code
points.  These are exactly the Go strings that are valid UTF-8. -/
def utf8 (cs : List Char) : GoString := runesToString (cs.map Char.toNat)

/-! ## The connection string -/

/-- One iteration of the loop of `escapeValue`: the `switch c` appending to
`encoded`. -/
def escapeStep (encoded : List Nat) (c : Nat) : List Nat :=
  if c = 0x20 then (encoded ++ [0x5C]) ++ [0x20]        -- case ' '
  else if c = 0x5C then (encoded ++ [0x5C]) ++ [0x5C]   -- case '\\'
  else if c = 0x27 then (encoded ++ [0x5C]) ++ [0x27]   -- case '\''
  else encoded ++ [c]                                   -- default

/-- The function `escapeValue` of dbClient.go. -/
def escapeValue (input : GoString) : GoString :=
  let encoded := (rangeRunes input).foldl escapeStep []
  runesToString encoded

/-- The function `PostgresConnectionString` of dbClient.go; `%s` writes the
bytes of its argument. -/
def PostgresConnectionString (host port user password dbname sslmode : GoString) : GoString :=
  utf8 "host='".toList ++ host ++ utf8 "' port='".toList ++ port ++
  utf8 "' user='".toList ++ escapeValue user ++
  utf8 "' password='".toList ++ escapeValue password ++
  utf8 "' dbname='".toList ++ escapeValue dbname ++
  utf8 "' sslmode='".toList ++ sslmode ++ utf8 "'".toList

/-- The escaping rule as the design document words it, on the bytes of a
string: every space, backslash and single quote is preceded by one added
backslash, every other byte is copied. -/
def escapeBytes : GoString → GoString
  | [] => []
  | b :: t =>
    if b = 0x20 ∨ b = 0x5C ∨ b = 0x27 then 0x5C :: b :: escapeBytes t
    else b :: escapeBytes t

/-- The escaping rule as the design document words it, on the characters of
a text: every space, backslash and single quote is preceded by one added
backslash, every other character is copied. -/
def escapeText : List Char → List Char
  | [] => []
  | c :: t =>
    if c = ' ' ∨ c = '\\' ∨ c = '\'' then '\\' :: c :: escapeText t
    else c :: escapeText t

/-- The inverse rule of the design document: a backslash is dropped and the
byte after it is taken literally. -/
def unescapeBytes : GoString → GoString
  | [] => []
  | b :: t =>
    if b = 0x5C then
      match t with
      | [] => []
      | c :: t2 => c :: unescapeBytes t2
    else b :: unescapeBytes t

/-- No space or single quote stands unescaped: reading from the left, a
backslash takes the next byte with it, and any other byte is neither a space
nor a single quote. -/
def wellEscaped : GoString → Bool
  | [] => true
  | b :: t =>
    if b = 0x5C then
      match t with
      | [] => false
      | _ :: t2 => wellEscaped t2
    else decide (b ≠ 0x20) && decide (b ≠ 0x27) && wellEscaped t

/-- The bytes one rune contributes to the result of `escapeValue`, as a list of
runes: the loop body without the accumulator. -/
def escapeRune (c : Nat) : List Nat :=
  if c = 0x20 ∨ c = 0x5C ∨ c = 0x27 then [0x5C, c] else [c]


/-! ## The database server as seen by the client

`PostgresClient` talks to the server through `database/sql`: `QueryRow(..).Scan`
for the three existence queries, `Exec` for the statements, all of them
synchronous.  The server is a parameter of the embedding: a state type `σ` with
one transition function per kind of call.  Every call the client makes is
appended to a log, together with every operation on the metrics of package
`metrics`, so that what an operation has issued can be read off afterwards.
Names, passwords and error messages are texts (`String`); a Go `error` is
represented by its message, `nil` by `none`. -/

/-- A non-nil Go `error`, by its message `err.Error()`. -/
abbrev GoError := String

deriving instance DecidableEq for Except

/-- The existence queries of dbClient.go, by the catalog they read; the
argument is the value bound to `$1`. -/
inductive Query where
  /-- Reads `SELECT EXISTS(SELECT datname FROM pg_catalog.pg_database WHERE datname = $1)`. -/
  | databaseExists (datname : String)
  /-- Reads `SELECT EXISTS(SELECT pg_roles.rolname FROM pg_catalog.pg_roles where pg_roles.rolname = $1)`. -/
  | roleExists (rolname : String)
  /-- Reads `SELECT EXISTS(SELECT pg_user.usename FROM pg_catalog.pg_user where pg_user.usename = $1)`. -/
  | userExists (usename : String)
  deriving DecidableEq, Repr

/-- The statements dbClient.go sends with `Exec`, one constructor per format
string, holding the arguments before quoting. -/
inductive Stmt where
  /-- Sends `create database %s`. -/
  | createDatabase (dbName : String)
  /-- Sends `CREATE EXTENSION IF NOT EXISTS %s`. -/
  | createExtension (ext : String)
  /-- Sends `CREATE ROLE %s WITH NOLOGIN`. -/
  | createRole (rolename : String)
  /-- Sends `GRANT ALL PRIVILEGES ON DATABASE %s TO %s`. -/
  | grantAll (dbName rolename : String)
  /-- Sends `ALTER ROLE %s SET ROLE TO %s`. -/
  | setRole (username rolename : String)
  /-- Sends `CREATE ROLE %s with encrypted password %s LOGIN IN ROLE %s`. -/
  | createLoginRole (username userPassword rolename : String)
  /-- Sends `ALTER USER %s RENAME TO %s`. -/
  | renameUser (oldUsername newUsername : String)
  /-- Sends `ALTER ROLE %s with encrypted password %s`. -/
  | alterPassword (username userPassword : String)
  deriving DecidableEq, Repr

/-- The handle a statement is sent on: `pc.DB`, or the handle `pc.getDB(dbName)`
returned. -/
inductive Conn where
  | admin
  | database (dbName : String)
  deriving DecidableEq, Repr

/-- The counters of package `metrics` that dbClient.go refers to. -/
inductive Counter where
  | DBCreated
  | DBProvisioningErrors
  | UsersCreated
  | UsersCreatedErrors
  | UsersUpdated
  | UsersUpdatedErrors
  | PasswordRotated
  | PasswordRotatedErrors
  deriving DecidableEq, Repr

/-- The histograms of package `metrics` that dbClient.go refers to. -/
inductive Histogram where
  | UsersCreateTime
  | UsersUpdateTime
  | PasswordRotateTime
  deriving DecidableEq, Repr

/-- An operation on the metrics sink. -/
inductive MetricOp where
  /-- The call `c.Inc()`, or `c.WithLabelValues(label).Inc()` on a counter vector. -/
  | inc (c : Counter) (label : Option String)
  /-- The call `c.WithLabelValues(label)` alone: the labelled counter is looked
  up and nothing is added to it. -/
  | withLabelValues (c : Counter) (label : String)
  /-- The call `h.Observe(duration.Seconds())`. -/
  | observe (h : Histogram)
  deriving DecidableEq, Repr

/-- What an operation does to the outside, in the order it does it. -/
inductive Event where
  | query (q : Query)
  | exec (c : Conn) (s : Stmt)
  | getDB (dbName : String)
  | close (dbName : String)
  | metric (m : MetricOp)
  deriving DecidableEq, Repr

/-- A database server: how each call of the client changes its state and what
it answers. -/
structure Backend (σ : Type) where
  /-- The call `db.QueryRow(query, arg).Scan(&exists)`: the error, or the value scanned. -/
  queryRow : σ → Query → σ × Except GoError Bool
  /-- The call `db.Exec(statement)`: its error. -/
  exec : σ → Conn → Stmt → σ × Option GoError
  /-- The call `pc.getDB(dbName)`: its error. -/
  getDB : σ → String → σ × Option GoError
  /-- The call `db.Close()` on the handle of `getDB`. -/
  close : σ → String → σ

/-- The client with its surroundings: the state of the server and the log of
what has been issued so far. -/
structure World (σ : Type) where
  db : σ
  log : List Event

/-- Performs `db.QueryRow(..).Scan(&exists)`. -/
def World.queryRow {σ : Type} (B : Backend σ) (w : World σ) (q : Query) :
    World σ × Except GoError Bool :=
  ({ db := (B.queryRow w.db q).1, log := w.log ++ [Event.query q] }, (B.queryRow w.db q).2)

/-- Performs `db.Exec(..)`. -/
def World.exec {σ : Type} (B : Backend σ) (w : World σ) (c : Conn) (s : Stmt) :
    World σ × Option GoError :=
  ({ db := (B.exec w.db c s).1, log := w.log ++ [Event.exec c s] }, (B.exec w.db c s).2)

/-- Performs `pc.getDB(dbName)`. -/
def World.getDB {σ : Type} (B : Backend σ) (w : World σ) (dbName : String) :
    World σ × Option GoError :=
  ({ db := (B.getDB w.db dbName).1, log := w.log ++ [Event.getDB dbName] }, (B.getDB w.db dbName).2)

/-- Performs `db.Close()`. -/
def World.close {σ : Type} (B : Backend σ) (w : World σ) (dbName : String) : World σ :=
  { db := B.close w.db dbName, log := w.log ++ [Event.close dbName] }

/-- Performs an operation on the metrics sink. -/
def World.emit {σ : Type} (w : World σ) (m : MetricOp) : World σ :=
  { db := w.db, log := w.log ++ [Event.metric m] }

/-- The statements of a log, in order, each with the handle it went to. -/
def execsOf : List Event → List (Conn × Stmt)
  | [] => []
  | Event.exec c s :: rest => (c, s) :: execsOf rest
  | _ :: rest => execsOf rest

/-- The value a counter has gained over a log: the number of its `Inc()` calls. -/
def counterValue (log : List Event) (c : Counter) (label : Option String) : Nat :=
  log.count (Event.metric (MetricOp.inc c label))

/-- The Go function `strings.Contains`, on texts. -/
def stringsContainsAux (sub : List Char) : List Char → Bool
  | [] => sub.isEmpty
  | c :: cs => sub.isPrefixOf (c :: cs) || stringsContainsAux sub cs

/-- The Go function `strings.Contains(s, substr)`. -/
def stringsContains (s substr : String) : Bool := stringsContainsAux substr.toList s.toList

/-! ## The operations of `PostgresClient` -/

/-- The variable `extensions` of dbClient.go. -/
def extensions : List String := ["citext", "uuid-ossp", "pgcrypto"]

/-- The loop `for _, s := range extensions` of `CreateDataBase`, on the handle
of the database. -/
def createExtensions {σ : Type} (B : Backend σ) (dbName : String) (created : Bool) :
    World σ → List String → World σ × (Bool × Option GoError)
  | w, [] => (w, (created, none))
  | w, s :: rest =>
    match w.exec B (Conn.database dbName) (Stmt.createExtension s) with
    | (w1, some err) => (w1, (created, some ("could not create extension " ++ s ++ ": " ++ err)))
    | (w1, none) => createExtensions B dbName created w1 rest

/-- The second half of `CreateDataBase`, from `db, err = pc.getDB(dbName)` on;
`defer db.Close()` runs when the function returns. -/
def connectAndExtend {σ : Type} (B : Backend σ) (w : World σ) (dbName : String)
    (created : Bool) : World σ × (Bool × Option GoError) :=
  match w.getDB B dbName with
  | (w1, some err) => (w1, (created, some err))
  | (w1, none) =>
    ((createExtensions B dbName created w1 extensions).1.close B dbName,
      (createExtensions B dbName created w1 extensions).2)

/-- The method `CreateDataBase`. -/
def CreateDataBase {σ : Type} (B : Backend σ) (w : World σ) (dbName : String) :
    World σ × (Bool × Option GoError) :=
  match w.queryRow B (Query.databaseExists dbName) with
  | (w1, Except.error err) =>
    (w1.emit (MetricOp.withLabelValues Counter.DBProvisioningErrors "read error"),
      (false, some err))
  | (w1, Except.ok false) =>
    match w1.exec B Conn.admin (Stmt.createDatabase dbName) with
    | (w2, some err) =>
      (w2.emit (MetricOp.withLabelValues Counter.DBProvisioningErrors "create error"),
        (false, some err))
    | (w2, none) => connectAndExtend B (w2.emit (MetricOp.inc Counter.DBCreated none)) dbName true
  | (w1, Except.ok true) => connectAndExtend B w1 dbName false

/-- The method `CreateGroup`. -/
def CreateGroup {σ : Type} (B : Backend σ) (w : World σ) (dbName rolename : String) :
    World σ × (Bool × Option GoError) :=
  match w.queryRow B (Query.roleExists rolename) with
  | (w1, Except.error err) =>
    (w1.emit (MetricOp.inc Counter.UsersCreatedErrors (some "read error")), (false, some err))
  | (w1, Except.ok false) =>
    match w1.exec B Conn.admin (Stmt.createRole rolename) with
    | (w2, some err) =>
      (w2.emit (MetricOp.inc Counter.UsersCreatedErrors (some "create error")), (false, some err))
    | (w2, none) =>
      match w2.exec B Conn.admin (Stmt.grantAll dbName rolename) with
      | (w3, some err) =>
        (w3.emit (MetricOp.inc Counter.UsersCreatedErrors (some "grant error")),
          (false, some err))
      | (w3, none) =>
        ((w3.emit (MetricOp.inc Counter.UsersCreated none)).emit
          (MetricOp.observe Histogram.UsersCreateTime), (true, none))
  | (w1, Except.ok true) => (w1, (false, none))

/-- The method `setGroup`. -/
def setGroup {σ : Type} (B : Backend σ) (w : World σ) (username rolename : String) :
    World σ × Option GoError :=
  w.exec B Conn.admin (Stmt.setRole username rolename)

/-- The method `CreateUser`. -/
def CreateUser {σ : Type} (B : Backend σ) (w : World σ)
    (username rolename userPassword : String) : World σ × (Bool × Option GoError) :=
  match w.queryRow B (Query.userExists username) with
  | (w1, Except.error err) =>
    (w1.emit (MetricOp.inc Counter.UsersCreatedErrors (some "read error")), (false, some err))
  | (w1, Except.ok false) =>
    match w1.exec B Conn.admin (Stmt.createLoginRole username userPassword rolename) with
    | (w2, some err) =>
      (w2.emit (MetricOp.inc Counter.UsersCreatedErrors (some "create error")), (false, some err))
    | (w2, none) =>
      match setGroup B w2 username rolename with
      | (w3, some err) =>
        (w3.emit (MetricOp.inc Counter.UsersCreatedErrors (some "grant error")),
          (false, some err))
      | (w3, none) =>
        ((w3.emit (MetricOp.inc Counter.UsersCreated none)).emit
          (MetricOp.observe Histogram.UsersCreateTime), (true, none))
  | (w1, Except.ok true) => (w1, (false, none))

/-- The method `RenameUser`. -/
def RenameUser {σ : Type} (B : Backend σ) (w : World σ) (oldUsername newUsername : String) :
    World σ × Option GoError :=
  match w.queryRow B (Query.roleExists oldUsername) with
  | (w1, Except.error err) => (w1, some err)
  | (w1, Except.ok true) => w1.exec B Conn.admin (Stmt.renameUser oldUsername newUsername)
  | (w1, Except.ok false) => (w1, none)

/-- The method `UpdatePassword`. -/
def UpdatePassword {σ : Type} (B : Backend σ) (w : World σ) (username userPassword : String) :
    World σ × Option GoError :=
  if userPassword = "" then
    (w.emit (MetricOp.inc Counter.PasswordRotatedErrors (some "empty password")),
      some "an empty password")
  else
    match w.exec B Conn.admin (Stmt.alterPassword username userPassword) with
    | (w1, some err) =>
      if !stringsContains err "already exists" then
        (w1.emit (MetricOp.inc Counter.PasswordRotatedErrors (some "alter error")), some err)
      else
        ((w1.emit (MetricOp.inc Counter.PasswordRotated none)).emit
          (MetricOp.observe Histogram.PasswordRotateTime), none)
    | (w1, none) =>
      ((w1.emit (MetricOp.inc Counter.PasswordRotated none)).emit
        (MetricOp.observe Histogram.PasswordRotateTime), none)

/-- The method `UpdateUser`. -/
def UpdateUser {σ : Type} (B : Backend σ) (w : World σ)
    (oldUsername newUsername rolename password : String) : World σ × Option GoError :=
  match w.queryRow B (Query.roleExists oldUsername) with
  | (w1, Except.error err) =>
    (w1.emit (MetricOp.inc Counter.UsersUpdatedErrors (some "read error")), some err)
  | (w1, Except.ok true) =>
    match RenameUser B w1 oldUsername newUsername with
    | (w2, some err) => (w2, some err)
    | (w2, none) =>
      match setGroup B w2 newUsername rolename with
      | (w3, some err) =>
        (w3.emit (MetricOp.inc Counter.UsersCreatedErrors (some "grant error")), some err)
      | (w3, none) =>
        match UpdatePassword B w3 newUsername password with
        | (w4, some err) => (w4, some err)
        | (w4, none) =>
          ((w4.emit (MetricOp.inc Counter.UsersUpdated none)).emit
            (MetricOp.observe Histogram.UsersUpdateTime), none)
  | (w1, Except.ok false) => (w1, none)

/-! ## A reference server

A small model of the catalog of a PostgreSQL server, used to instantiate the
server parameter: databases, roles and installed extensions, with the
statements above acting on them the way the server documents them. -/

/-- A row of `pg_roles`. -/
structure PgRole where
  rolname : String
  canLogin : Bool
  password : Option String
  memberOf : List String
  /-- The setting made by `ALTER ROLE .. SET ROLE TO ..`. -/
  defaultRole : Option String
  deriving DecidableEq, Repr

/-- The catalog of the reference server. -/
structure PgServer where
  databases : List String
  roles : List PgRole
  /-- Pairs (database, extension). -/
  extensions : List (String × String)
  /-- Pairs (database, role) of `GRANT ALL PRIVILEGES ON DATABASE`. -/
  privileges : List (String × String)
  deriving DecidableEq, Repr

/-- Whether a role of that name exists. -/
def PgServer.hasRole (s : PgServer) (name : String) : Bool :=
  s.roles.any (fun r => r.rolname == name)

/-- Whether a role of that name exists and can log in: a row of `pg_user`. -/
def PgServer.hasUser (s : PgServer) (name : String) : Bool :=
  s.roles.any (fun r => r.rolname == name && r.canLogin)

/-- Applies `f` to the role of that name. -/
def PgServer.mapRole (s : PgServer) (name : String) (f : PgRole → PgRole) : PgServer :=
  { s with roles := s.roles.map (fun r => if r.rolname = name then f r else r) }

/-- The existence queries on the catalog. -/
def PgServer.queryRow (s : PgServer) : Query → PgServer × Except GoError Bool
  | Query.databaseExists n => (s, Except.ok (s.databases.contains n))
  | Query.roleExists n => (s, Except.ok (s.hasRole n))
  | Query.userExists n => (s, Except.ok (s.hasUser n))

/-- The statements on the catalog. -/
def PgServer.exec (s : PgServer) (c : Conn) : Stmt → PgServer × Option GoError
  | Stmt.createDatabase n =>
    if s.databases.contains n then (s, some ("pq: database \"" ++ n ++ "\" already exists"))
    else ({ s with databases := s.databases ++ [n] }, none)
  | Stmt.createExtension e =>
    match c with
    | Conn.admin =>
      if s.extensions.contains ("postgres", e) then (s, none)
      else ({ s with extensions := s.extensions ++ [("postgres", e)] }, none)
    | Conn.database d =>
      if !s.databases.contains d then (s, some ("pq: database \"" ++ d ++ "\" does not exist"))
      else if s.extensions.contains (d, e) then (s, none)
      else ({ s with extensions := s.extensions ++ [(d, e)] }, none)
  | Stmt.createRole r =>
    if s.hasRole r then (s, some ("pq: role \"" ++ r ++ "\" already exists"))
    else ({ s with roles := s.roles ++
      [{ rolname := r, canLogin := false, password := none, memberOf := [],
         defaultRole := none }] }, none)
  | Stmt.grantAll d r =>
    if !s.databases.contains d then (s, some ("pq: database \"" ++ d ++ "\" does not exist"))
    else if !s.hasRole r then (s, some ("pq: role \"" ++ r ++ "\" does not exist"))
    else if s.privileges.contains (d, r) then (s, none)
    else ({ s with privileges := s.privileges ++ [(d, r)] }, none)
  | Stmt.setRole u r =>
    if !s.hasRole u then (s, some ("pq: role \"" ++ u ++ "\" does not exist"))
    else (s.mapRole u (fun x => { x with defaultRole := some r }), none)
  | Stmt.createLoginRole u pw r =>
    if s.hasRole u then (s, some ("pq: role \"" ++ u ++ "\" already exists"))
    else if !s.hasRole r then (s, some ("pq: role \"" ++ r ++ "\" does not exist"))
    else ({ s with roles := s.roles ++
      [{ rolname := u, canLogin := true, password := some pw, memberOf := [r],
         defaultRole := none }] }, none)
  | Stmt.renameUser o n =>
    if !s.hasRole o then (s, some ("pq: role \"" ++ o ++ "\" does not exist"))
    else if s.hasRole n then (s, some ("pq: role \"" ++ n ++ "\" already exists"))
    else (s.mapRole o (fun x => { x with rolname := n }), none)
  | Stmt.alterPassword u pw =>
    if !s.hasRole u then (s, some ("pq: role \"" ++ u ++ "\" does not exist"))
    else (s.mapRole u (fun x => { x with password := some pw }), none)

/-- The reference server as a `Backend`; opening and closing a handle leave the
catalog as it is. -/
def pgBackend : Backend PgServer where
  queryRow := PgServer.queryRow
  exec := PgServer.exec
  getDB := fun s _ => (s, none)
  close := fun s _ => s

/-- The role of that name has `role` as its `SET ROLE` setting. -/
def PgServer.boundTo (s : PgServer) (name role : String) : Bool :=
  s.roles.any (fun r => r.rolname == name && r.defaultRole == some role)

/-- The role of that name has that password. -/
def PgServer.hasPassword (s : PgServer) (name pw : String) : Bool :=
  s.roles.any (fun r => r.rolname == name && r.password == some pw)

/-- A server whose every call fails with the same error: an unreachable
server. -/
def downBackend (msg : GoError) : Backend Unit where
  queryRow := fun s _ => (s, Except.error msg)
  exec := fun s _ _ => (s, some msg)
  getDB := fun s _ => (s, some msg)
  close := fun s _ => s

/-- A server that answers the calls from a script, one entry per call, in
order: `Sum.inl b` lets the call succeed (an existence query answers `b`),
`Sum.inr msg` lets it fail with the error `msg`.  Past the end of the script
every call succeeds and every query answers `false`. -/
def scriptedBackend : Backend (List (Bool ⊕ GoError)) where
  queryRow := fun s _ =>
    match s with
    | [] => ([], Except.ok false)
    | Sum.inl b :: rest => (rest, Except.ok b)
    | Sum.inr msg :: rest => (rest, Except.error msg)
  exec := fun s _ _ =>
    match s with
    | [] => ([], none)
    | Sum.inl _ :: rest => (rest, none)
    | Sum.inr msg :: rest => (rest, some msg)
  getDB := fun s _ =>
    match s with
    | [] => ([], none)
    | Sum.inl _ :: rest => (rest, none)
    | Sum.inr msg :: rest => (rest, some msg)
  close := fun s _ => s

/-- A client that has issued nothing yet. -/
def World.start {σ : Type} (s : σ) : World σ := { db := s, log := [] }

/-- Modelled from the spec: the password policy, `passwordComplexity`
(enabled or disabled) and `minPasswordLength`; the function that reads it is
not among the sources. -/
structure PasswordPolicy where
  /-- Whether `passwordComplexity` is `enabled`. -/
  complexityEnabled : Bool
  minPasswordLength : Nat
  deriving DecidableEq, Repr

/-- Modelled from the spec: the errors of `generatePassword`, which is not
among the sources. -/
inductive PasswordError where
  | PolicyViolation
  deriving DecidableEq, Repr

/-- The uppercase letters. -/
def upperChars : List Char := "ABCDEFGHIJKLMNOPQRSTUVWXYZ".toList

/-- The lowercase letters. -/
def lowerChars : List Char := "abcdefghijklmnopqrstuvwxyz".toList

/-- The digits. -/
def digitChars : List Char := "0123456789".toList

/-- The symbols. -/
def symbolChars : List Char := "!@#$%^&*()-_=+".toList

/-- The character of a pool that a random number selects. -/
def pick (pool : List Char) (n : Nat) : Char := pool.getD (n % pool.length) 'x'

/-- Modelled from the spec: `generatePassword`, which is not among the
sources.  With complexity disabled the password has the fixed default length
and is made of letters and digits, whatever `minPasswordLength` is.  With
complexity enabled it has exactly `minPasswordLength` characters, at least one
of them uppercase, one lowercase, one a digit and one a symbol; when
`minPasswordLength` is too small to fit the four classes the call fails with
`PolicyViolation`.  `defaultPassLen` is the named constant of the controllers
package and `rnd` the random source. -/
def generatePassword (defaultPassLen : Nat) (rnd : Nat → Nat) (p : PasswordPolicy) :
    Except PasswordError (List Char) :=
  if p.complexityEnabled then
    if p.minPasswordLength < 4 then Except.error PasswordError.PolicyViolation
    else
      Except.ok ([pick upperChars (rnd 0), pick lowerChars (rnd 1), pick digitChars (rnd 2),
          pick symbolChars (rnd 3)] ++
        (List.range (p.minPasswordLength - 4)).map (fun i =>
          pick (upperChars ++ lowerChars ++ digitChars ++ symbolChars) (rnd (i + 4))))
  else
    Except.ok ((List.range defaultPassLen).map (fun i =>
      pick (upperChars ++ lowerChars ++ digitChars) (rnd i)))
/-! ## Lemmas on the UTF-8 codec -/

theorem foldl_escapeStep (rs acc : List Nat) :
    rs.foldl escapeStep acc = acc ++ rs.flatMap escapeRune := by
  induction rs generalizing acc with
  | nil => simp
  | cons r rs ih =>
    simp only [List.foldl_cons, List.flatMap_cons, ih]
    unfold escapeStep escapeRune
    by_cases h1 : r = 0x20
    · simp [h1]
    · by_cases h2 : r = 0x5C
      · simp [h2]
      · by_cases h3 : r = 0x27
        · simp [h3]
        · simp [h1, h2, h3]

theorem escapeValue_eq (s : GoString) :
    escapeValue s = runesToString ((rangeRunes s).flatMap escapeRune) := by
  simp [escapeValue, foldl_escapeStep]

theorem decoderune_width_pos (s : GoString) : 1 ≤ (decoderune s).2 := by
  unfold decoderune
  repeat' split
  all_goals first
    | (simp; done)
    | (simp only []; split_ifs <;> simp)

theorem rangeRunesAux_fuel (n m : Nat) (s : GoString) (hn : s.length ≤ n) (hm : s.length ≤ m) :
    rangeRunesAux n s = rangeRunesAux m s := by
  induction n generalizing m s with
  | zero =>
    have : s = [] := List.length_eq_zero.mp (Nat.le_zero.mp hn)
    subst this
    cases m <;> simp [rangeRunesAux]
  | succ n ih =>
    cases s with
    | nil => cases m <;> simp [rangeRunesAux]
    | cons b t =>
      cases m with
      | zero => simp at hm
      | succ m =>
        simp only [List.length_cons, Nat.add_le_add_iff_right] at hn hm
        have hw := decoderune_width_pos (b :: t)
        have hd : ((b :: t).drop (decoderune (b :: t)).2).length ≤ t.length := by
          simp only [List.length_drop, List.length_cons]; omega
        simp only [rangeRunesAux]
        rw [ih m t hn hm, ih m _ (le_trans hd hn) (le_trans hd hm)]

theorem char_toNat_valid (c : Char) :
    c.toNat < 0xD800 ∨ (0xDFFF < c.toNat ∧ c.toNat < 0x110000) := by
  have h := c.valid
  simpa [UInt32.isValidChar, Nat.isValidChar, Char.toNat] using h

theorem decoderune_two (b0 b1 : Nat) (rest : GoString)
    (h0 : 0xC0 ≤ b0 ∧ b0 < 0xE0) (h1 : 0x80 ≤ b1 ∧ b1 ≤ 0xBF)
    (hr : 0x7F < (b0 % 32) * 64 + b1 % 64) :
    decoderune (b0 :: b1 :: rest) = ((b0 % 32) * 64 + b1 % 64, 2) := by
  simp [decoderune, isCont, h0, h1, hr]

theorem decoderune_three (b0 b1 b2 : Nat) (rest : GoString)
    (h0 : 0xE0 ≤ b0 ∧ b0 < 0xF0) (h1 : 0x80 ≤ b1 ∧ b1 ≤ 0xBF) (h2 : 0x80 ≤ b2 ∧ b2 ≤ 0xBF)
    (hr : 0x7FF < (b0 % 16) * 4096 + (b1 % 64) * 64 + b2 % 64)
    (hs : ¬ (0xD800 ≤ (b0 % 16) * 4096 + (b1 % 64) * 64 + b2 % 64 ∧
      (b0 % 16) * 4096 + (b1 % 64) * 64 + b2 % 64 ≤ 0xDFFF)) :
    decoderune (b0 :: b1 :: b2 :: rest) = ((b0 % 16) * 4096 + (b1 % 64) * 64 + b2 % 64, 3) := by
  have n0 : ¬ (0xC0 ≤ b0 ∧ b0 < 0xE0) := by omega
  simp only [decoderune, if_neg n0, if_pos h0, isCont, h1, h2, decide_True, Bool.and_self,
    if_true, if_pos (And.intro hr hs)]

theorem decoderune_four (b0 b1 b2 b3 : Nat) (rest : GoString)
    (h0 : 0xF0 ≤ b0 ∧ b0 < 0xF8) (h1 : 0x80 ≤ b1 ∧ b1 ≤ 0xBF) (h2 : 0x80 ≤ b2 ∧ b2 ≤ 0xBF)
    (h3 : 0x80 ≤ b3 ∧ b3 ≤ 0xBF)
    (hr : 0xFFFF < (b0 % 8) * 262144 + (b1 % 64) * 4096 + (b2 % 64) * 64 + b3 % 64 ∧
      (b0 % 8) * 262144 + (b1 % 64) * 4096 + (b2 % 64) * 64 + b3 % 64 ≤ 0x10FFFF) :
    decoderune (b0 :: b1 :: b2 :: b3 :: rest)
      = ((b0 % 8) * 262144 + (b1 % 64) * 4096 + (b2 % 64) * 64 + b3 % 64, 4) := by
  have n0 : ¬ (0xC0 ≤ b0 ∧ b0 < 0xE0) := by omega
  have n1 : ¬ (0xE0 ≤ b0 ∧ b0 < 0xF0) := by omega
  simp only [decoderune, if_neg n0, if_neg n1, if_pos h0, isCont, h1, h2, h3, decide_True,
    Bool.and_self, if_true, if_pos hr]

theorem rangeRunesAux_encoderune (n r : Nat) (rest : GoString)
    (hr : r < 0xD800 ∨ (0xDFFF < r ∧ r < 0x110000)) :
    rangeRunesAux (n + 1) (encoderune r ++ rest) = r :: rangeRunesAux n rest := by
  unfold encoderune
  by_cases h1 : r ≤ 0x7F
  · have : r < 0x80 := by omega
    simp [h1, rangeRunesAux, this]
  · by_cases h2 : r ≤ 0x7FF
    · obtain ⟨b0, e0⟩ : ∃ b0, b0 = 0xC0 + r / 64 := ⟨_, rfl⟩
      obtain ⟨b1, e1⟩ : ∃ b1, b1 = 0x80 + r % 64 := ⟨_, rfl⟩
      rw [if_neg h1, if_pos h2, ← e0, ← e1]
      have d := decoderune_two b0 b1 rest (by omega) (by omega) (by omega)
      have hv : (b0 % 32) * 64 + b1 % 64 = r := by omega
      have a1 : ¬ (b0 < 0x80) := by omega
      show rangeRunesAux (n + 1) (b0 :: b1 :: rest) = _
      rw [rangeRunesAux, if_neg a1, d, hv]
      simp
    · by_cases h3 : r ≤ 0xFFFF
      · obtain ⟨b0, e0⟩ : ∃ b0, b0 = 0xE0 + r / 4096 := ⟨_, rfl⟩
        obtain ⟨b1, e1⟩ : ∃ b1, b1 = 0x80 + (r / 64) % 64 := ⟨_, rfl⟩
        obtain ⟨b2, e2⟩ : ∃ b2, b2 = 0x80 + r % 64 := ⟨_, rfl⟩
        have hs : ¬ (0x10FFFF < r ∨ (0xD800 ≤ r ∧ r ≤ 0xDFFF)) := by omega
        rw [if_neg h1, if_neg h2, if_neg hs, if_pos h3, ← e0, ← e1, ← e2]
        have hv : (b0 % 16) * 4096 + (b1 % 64) * 64 + b2 % 64 = r := by omega
        have d := decoderune_three b0 b1 b2 rest (by omega) (by omega) (by omega)
          (by omega) (by omega)
        have a1 : ¬ (b0 < 0x80) := by omega
        show rangeRunesAux (n + 1) (b0 :: b1 :: b2 :: rest) = _
        rw [rangeRunesAux, if_neg a1, d, hv]
        simp
      · obtain ⟨b0, e0⟩ : ∃ b0, b0 = 0xF0 + r / 262144 := ⟨_, rfl⟩
        obtain ⟨b1, e1⟩ : ∃ b1, b1 = 0x80 + (r / 4096) % 64 := ⟨_, rfl⟩
        obtain ⟨b2, e2⟩ : ∃ b2, b2 = 0x80 + (r / 64) % 64 := ⟨_, rfl⟩
        obtain ⟨b3, e3⟩ : ∃ b3, b3 = 0x80 + r % 64 := ⟨_, rfl⟩
        have hs : ¬ (0x10FFFF < r ∨ (0xD800 ≤ r ∧ r ≤ 0xDFFF)) := by omega
        rw [if_neg h1, if_neg h2, if_neg hs, if_neg h3, ← e0, ← e1, ← e2, ← e3]
        have hv : (b0 % 8) * 262144 + (b1 % 64) * 4096 + (b2 % 64) * 64 + b3 % 64 = r := by
          omega
        have d := decoderune_four b0 b1 b2 b3 rest (by omega) (by omega) (by omega)
          (by omega) (by omega)
        have a1 : ¬ (b0 < 0x80) := by omega
        show rangeRunesAux (n + 1) (b0 :: b1 :: b2 :: b3 :: rest) = _
        rw [rangeRunesAux, if_neg a1, d, hv]
        simp

theorem rangeRunes_utf8 (cs : List Char) : rangeRunes (utf8 cs) = cs.map Char.toNat := by
  induction cs with
  | nil => rfl
  | cons c cs ih =>
    have hlen : 1 ≤ (encoderune c.toNat).length := by
      unfold encoderune; repeat' split
      all_goals simp
    have e : utf8 (c :: cs) = encoderune c.toNat ++ utf8 cs := by
      simp [utf8, runesToString]
    obtain ⟨k, hk⟩ : ∃ k, (utf8 (c :: cs)).length = k + 1 :=
      ⟨(utf8 (c :: cs)).length - 1, by rw [e, List.length_append]; omega⟩
    unfold rangeRunes
    rw [hk, e, rangeRunesAux_encoderune k _ _ (char_toNat_valid c)]
    have hk2 : (utf8 cs).length ≤ k := by
      rw [e, List.length_append] at hk; omega
    rw [rangeRunesAux_fuel k (utf8 cs).length (utf8 cs) hk2 (le_refl _)]
    simpa [rangeRunes] using ih

/-! ## `escapeValue` against the escaping rule of the design document -/

theorem escapeBytes_eq_flatMap (s : GoString) : escapeBytes s = s.flatMap escapeRune := by
  induction s with
  | nil => rfl
  | cons b t ih =>
    simp only [escapeBytes, List.flatMap_cons, ih, escapeRune]
    split <;> simp

theorem encoderune_escapeRune (r : Nat) :
    (encoderune r).flatMap escapeRune = (escapeRune r).flatMap encoderune := by
  by_cases hd : r = 0x20 ∨ r = 0x5C ∨ r = 0x27
  · rcases hd with h | h | h <;> subst h <;> decide
  · have e : escapeRune r = [r] := by simp [escapeRune, hd]
    rw [e]
    simp only [List.flatMap_cons, List.flatMap_nil, List.append_nil]
    unfold encoderune
    have nd : ∀ b, 0x80 ≤ b → escapeRune b = [b] := by
      intro b hb
      have : ¬ (b = 0x20 ∨ b = 0x5C ∨ b = 0x27) := by omega
      simp [escapeRune, this]
    split
    · simp [e]
    · split
      · simp [nd (0xC0 + r / 64) (by omega), nd (0x80 + r % 64) (by omega)]
      · split
        · decide
        · split
          · simp [nd (0xE0 + r / 4096) (by omega), nd (0x80 + r / 64 % 64) (by omega),
              nd (0x80 + r % 64) (by omega)]
          · simp [nd (0xF0 + r / 262144) (by omega), nd (0x80 + r / 4096 % 64) (by omega),
              nd (0x80 + r / 64 % 64) (by omega), nd (0x80 + r % 64) (by omega)]

/-- On every Go string, `escapeValue` is the escaping rule applied to
`string([]rune(s))`, the string with each ill-formed byte replaced by U+FFFD. -/
theorem escapeValue_eq_escapeBytes (s : GoString) :
    escapeValue s = escapeBytes (runesToString (rangeRunes s)) := by
  rw [escapeValue_eq, escapeBytes_eq_flatMap]
  unfold runesToString
  induction rangeRunes s with
  | nil => rfl
  | cons r rs ih =>
    simp only [List.flatMap_cons, List.flatMap_append, ih, encoderune_escapeRune]

theorem runesToString_rangeRunes_utf8 (cs : List Char) :
    runesToString (rangeRunes (utf8 cs)) = utf8 cs := by
  rw [rangeRunes_utf8]; rfl

theorem escapeValue_utf8 (cs : List Char) : escapeValue (utf8 cs) = escapeBytes (utf8 cs) := by
  rw [escapeValue_eq_escapeBytes, runesToString_rangeRunes_utf8]

theorem unescapeBytes_escapeBytes (s : GoString) : unescapeBytes (escapeBytes s) = s := by
  induction s with
  | nil => rfl
  | cons b t ih =>
    by_cases hd : b = 0x20 ∨ b = 0x5C ∨ b = 0x27
    · simp [escapeBytes, hd, unescapeBytes, ih]
    · have hb : ¬ b = 0x5C := fun h => hd (Or.inr (Or.inl h))
      rw [escapeBytes, if_neg hd]
      unfold unescapeBytes
      simp only [if_neg hb, ih]

theorem wellEscaped_escapeBytes (s : GoString) : wellEscaped (escapeBytes s) = true := by
  induction s with
  | nil => rfl
  | cons b t ih =>
    by_cases hd : b = 0x20 ∨ b = 0x5C ∨ b = 0x27
    · simp [escapeBytes, hd, wellEscaped, ih]
    · have h1 : ¬ b = 0x5C := fun h => hd (Or.inr (Or.inl h))
      have h2 : ¬ b = 0x20 := fun h => hd (Or.inl h)
      have h3 : ¬ b = 0x27 := fun h => hd (Or.inr (Or.inr h))
      rw [escapeBytes, if_neg hd]
      unfold wellEscaped
      simp only [if_neg h1, ih]
      simp [h2, h3]

theorem escapeBytes_append (a b : GoString) :
    escapeBytes (a ++ b) = escapeBytes a ++ escapeBytes b := by
  simp [escapeBytes_eq_flatMap]

theorem char_eq_of_toNat (c d : Char) (h : c.toNat = d.toNat) : c = d := by
  rw [← Char.ofNat_toNat c, ← Char.ofNat_toNat d, h]

/-- On a text, escaping the characters and escaping the bytes agree. -/
theorem utf8_escapeText (cs : List Char) : utf8 (escapeText cs) = escapeBytes (utf8 cs) := by
  induction cs with
  | nil => rfl
  | cons c cs ih =>
    have e : ∀ (d : Char) (ds : List Char), utf8 (d :: ds) = encoderune d.toNat ++ utf8 ds := by
      intro d ds; simp [utf8, runesToString]
    rw [e c cs, escapeBytes_append, ← ih, escapeBytes_eq_flatMap (encoderune c.toNat),
      encoderune_escapeRune]
    by_cases hd : c = ' ' ∨ c = '\\' ∨ c = '\''
    · have hr : escapeRune c.toNat = [0x5C, c.toNat] := by
        rcases hd with h | h | h <;> subst h <;> decide
      have hb : encoderune 0x5C = [('\\' : Char).toNat] := by decide
      rw [escapeText, if_pos hd, e, e, hr]
      simp [hb]
    · have hn : ¬ (c.toNat = 0x20 ∨ c.toNat = 0x5C ∨ c.toNat = 0x27) := by
        intro h
        apply hd
        rcases h with h | h | h
        · exact Or.inl (char_eq_of_toNat c ' ' h)
        · exact Or.inr (Or.inl (char_eq_of_toNat c '\\' h))
        · exact Or.inr (Or.inr (char_eq_of_toNat c '\'' h))
      have hr : escapeRune c.toNat = [c.toNat] := by simp [escapeRune, hn]
      rw [escapeText, if_neg hd, e, hr]
      simp

/-- C1 (as amended): for every host, port and sslmode and every user, password
and dbname that are valid UTF-8, `PostgresConnectionString` returns exactly
`host='H' port='P' user='U2' password='W2' dbname='D2' sslmode='S'`, where U2,
W2 and D2 are user, password and dbname with every space, backslash and single
quote preceded by one added backslash and everything else copied unchanged in
order; user `a b` becomes `a\ b` and password `p'q\r` becomes `p\'q\\r`.  For
an arbitrary user, password or dbname the same holds of `string([]rune(s))`,
the string with each ill-formed byte replaced by U+FFFD. -/
theorem PostgresConnectionString_valid_utf8 (host port sslmode : GoString) :
    (∀ user password dbname : List Char,
      PostgresConnectionString host port (utf8 user) (utf8 password) (utf8 dbname) sslmode
        = utf8 "host='".toList ++ host ++ utf8 "' port='".toList ++ port ++
          utf8 "' user='".toList ++ utf8 (escapeText user) ++
          utf8 "' password='".toList ++ utf8 (escapeText password) ++
          utf8 "' dbname='".toList ++ utf8 (escapeText dbname) ++
          utf8 "' sslmode='".toList ++ sslmode ++ utf8 "'".toList)
    ∧ (∀ cs : List Char, utf8 (escapeText cs) = escapeBytes (utf8 cs))
    ∧ (∀ user password dbname : GoString,
      PostgresConnectionString host port user password dbname sslmode
        = utf8 "host='".toList ++ host ++ utf8 "' port='".toList ++ port ++
          utf8 "' user='".toList ++ escapeBytes (runesToString (rangeRunes user)) ++
          utf8 "' password='".toList ++ escapeBytes (runesToString (rangeRunes password)) ++
          utf8 "' dbname='".toList ++ escapeBytes (runesToString (rangeRunes dbname)) ++
          utf8 "' sslmode='".toList ++ sslmode ++ utf8 "'".toList)
    ∧ escapeValue (utf8 "a b".toList) = utf8 "a\\ b".toList
    ∧ escapeValue (utf8 "p'q\\r".toList) = utf8 "p\\'q\\\\r".toList := by
  refine ⟨?_, utf8_escapeText, ?_, by decide, by decide⟩
  · intro user password dbname
    simp only [PostgresConnectionString, escapeValue_utf8, utf8_escapeText]
  · intro user password dbname
    simp only [PostgresConnectionString, escapeValue_eq_escapeBytes]

/-- C1 (counterexample): the user consisting of the single byte `0xFF` holds no
space, backslash or single quote, yet it is not copied unchanged: the
connection string carries the three bytes of U+FFFD in its place. -/
theorem PostgresConnectionString_invalid_byte :
    escapeBytes [0xFF] = [0xFF]
    ∧ PostgresConnectionString [] [] [0xFF] [] [] []
        = utf8 "host='' port='' user='�' password='' dbname='' sslmode=''".toList
    ∧ PostgresConnectionString [] [] [0xFF] [] [] []
        ≠ utf8 "host='".toList ++ [] ++ utf8 "' port='".toList ++ [] ++
          utf8 "' user='".toList ++ escapeBytes [0xFF] ++
          utf8 "' password='".toList ++ escapeBytes [] ++
          utf8 "' dbname='".toList ++ escapeBytes [] ++
          utf8 "' sslmode='".toList ++ [] ++ utf8 "'".toList := by
  decide

/-- C2 (as amended): for every input string that is valid UTF-8, re-parsing
`escapeValue s` with the inverse rule (a backslash is dropped and what follows
it is taken literally) reproduces `s` exactly, so `escapeValue` is injective on
valid UTF-8; and for every input string whatsoever, every space and single
quote of `escapeValue s` is immediately preceded by an escaping backslash. -/
theorem escapeValue_roundtrip_valid_utf8 :
    (∀ cs : List Char, unescapeBytes (escapeValue (utf8 cs)) = utf8 cs)
    ∧ (∀ a b : List Char, escapeValue (utf8 a) = escapeValue (utf8 b) → utf8 a = utf8 b)
    ∧ (∀ s : GoString, wellEscaped (escapeValue s) = true) := by
  have rt : ∀ cs : List Char, unescapeBytes (escapeValue (utf8 cs)) = utf8 cs := by
    intro cs
    rw [escapeValue_utf8, unescapeBytes_escapeBytes]
  refine ⟨rt, ?_, ?_⟩
  · intro a b h
    rw [← rt a, ← rt b, h]
  · intro s
    rw [escapeValue_eq_escapeBytes]
    exact wellEscaped_escapeBytes _

/-- C2 (counterexample): the one-byte strings `0xFF` and `0xFE` are both mapped
to the bytes of U+FFFD, so re-parsing does not reproduce the input and
`escapeValue` is not injective on Go strings. -/
theorem escapeValue_roundtrip_invalid_byte :
    unescapeBytes (escapeValue [0xFF]) = [0xEF, 0xBF, 0xBD]
    ∧ unescapeBytes (escapeValue [0xFF]) ≠ [0xFF]
    ∧ escapeValue [0xFF] = escapeValue [0xFE]
    ∧ ([0xFF] : GoString) ≠ [0xFE] := by
  decide

/-! ## The operations of the client -/

theorem execsOf_append (a b : List Event) : execsOf (a ++ b) = execsOf a ++ execsOf b := by
  induction a with
  | nil => rfl
  | cons e a ih => cases e <;> simp [execsOf, ih]

/-- C3: `UpdatePassword` returns an error exactly when the password is empty
or the ALTER ROLE statement fails with a message that does not contain
"already exists".  With an empty password the error is "an empty password" and
nothing is sent to the server; a failure of the statement is returned as it
is; a failure whose message contains "already exists" is returned as nil. -/
theorem UpdatePassword_error_iff {σ : Type} (B : Backend σ) (w : World σ)
    (username userPassword : String) :
    ((UpdatePassword B w username userPassword).2 ≠ none ↔
      (userPassword = "" ∨
        (userPassword ≠ "" ∧ ∃ err,
          (B.exec w.db Conn.admin (Stmt.alterPassword username userPassword)).2 = some err ∧
          stringsContains err "already exists" = false)))
    ∧ (userPassword = "" →
        (UpdatePassword B w username userPassword).2 = some "an empty password" ∧
        (UpdatePassword B w username userPassword).1.db = w.db ∧
        (UpdatePassword B w username userPassword).1.log = w.log ++
          [Event.metric (MetricOp.inc Counter.PasswordRotatedErrors (some "empty password"))])
    ∧ (∀ err, userPassword ≠ "" →
        (B.exec w.db Conn.admin (Stmt.alterPassword username userPassword)).2 = some err →
        stringsContains err "already exists" = false →
        (UpdatePassword B w username userPassword).2 = some err)
    ∧ (∀ err, userPassword ≠ "" →
        (B.exec w.db Conn.admin (Stmt.alterPassword username userPassword)).2 = some err →
        stringsContains err "already exists" = true →
        (UpdatePassword B w username userPassword).2 = none) := by
  by_cases hp : userPassword = ""
  · simp [UpdatePassword, hp, World.emit]
  · cases h : (B.exec w.db Conn.admin (Stmt.alterPassword username userPassword)).2 with
    | none => simp [UpdatePassword, hp, World.exec, h]
    | some err =>
      cases hc : stringsContains err "already exists" <;>
        simp [UpdatePassword, hp, World.exec, h, hc]

/-- C3 (instance): on the reference server, an empty password is refused
without a statement, a password for a role that does not exist fails with the
server's error, and a failure saying "already exists" is swallowed. -/
theorem UpdatePassword_error_iff_witness :
    (UpdatePassword pgBackend (World.start ⟨[], [], [], []⟩) "app1" "").2
        = some "an empty password"
    ∧ execsOf (UpdatePassword pgBackend (World.start ⟨[], [], [], []⟩) "app1" "").1.log = []
    ∧ (UpdatePassword pgBackend (World.start ⟨[], [], [], []⟩) "app1" "s3cret").2
        = some "pq: role \"app1\" does not exist"
    ∧ (UpdatePassword scriptedBackend (World.start [Sum.inr "pq: role already exists"])
        "app1" "s3cret").2 = none :=
  ⟨((UpdatePassword_error_iff pgBackend (World.start ⟨[], [], [], []⟩) "app1" "").2.1 rfl).1,
    by decide,
    (UpdatePassword_error_iff pgBackend (World.start ⟨[], [], [], []⟩) "app1" "s3cret").2.2.1
      "pq: role \"app1\" does not exist" (by decide) (by decide) (by decide),
    (UpdatePassword_error_iff scriptedBackend (World.start [Sum.inr "pq: role already exists"])
      "app1" "s3cret").2.2.2 "pq: role already exists" (by decide) (by decide) (by decide)⟩

/-- On the reference server a role that has been renamed away no longer
exists under its old name. -/
theorem pg_rename_removes_old (t : PgServer) (c : Conn) (o n : String)
    (h : (PgServer.exec t c (Stmt.renameUser o n)).2 = none) :
    (PgServer.exec t c (Stmt.renameUser o n)).1.hasRole o = false := by
  unfold PgServer.exec at h ⊢
  by_cases ho : t.hasRole o = true
  · by_cases hn : t.hasRole n = true
    · simp [ho, hn] at h
    · have hne : ¬ n = o := by
        intro e; subst e; exact hn ho
      simp only [ho, hn, Bool.not_true, Bool.false_eq_true, if_false]
      simp only [PgServer.hasRole, PgServer.mapRole, List.any_map, List.any_eq_false]
      intro r _
      simp only [Function.comp]
      by_cases hr : r.rolname = o
      · simp [hr, hne]
      · simp [hr]
  · simp [ho] at h

/-- C5: if the existence query succeeds and reports that the old username does
not exist, `RenameUser` returns nil and its only call to the server is that
query: no ALTER statement is issued.  Hence, on a server where a role renamed
away is gone under its old name, a second `RenameUser` after a successful
rename returns nil without issuing a statement. -/
theorem RenameUser_absent_noop {σ : Type} (B : Backend σ) (old new : String) :
    (∀ w : World σ, (B.queryRow w.db (Query.roleExists old)).2 = Except.ok false →
        (RenameUser B w old new).2 = none ∧
        (RenameUser B w old new).1.log = w.log ++ [Event.query (Query.roleExists old)] ∧
        (RenameUser B w old new).1.db = (B.queryRow w.db (Query.roleExists old)).1)
    ∧ ((∀ t, (B.exec t Conn.admin (Stmt.renameUser old new)).2 = none →
          (B.queryRow (B.exec t Conn.admin (Stmt.renameUser old new)).1
            (Query.roleExists old)).2 = Except.ok false) →
        ∀ w : World σ, (B.queryRow w.db (Query.roleExists old)).2 = Except.ok true →
          (RenameUser B w old new).2 = none →
          (RenameUser B (RenameUser B w old new).1 old new).2 = none ∧
          execsOf (RenameUser B (RenameUser B w old new).1 old new).1.log
            = execsOf (RenameUser B w old new).1.log) := by
  have part1 : ∀ w : World σ, (B.queryRow w.db (Query.roleExists old)).2 = Except.ok false →
      (RenameUser B w old new).2 = none ∧
      (RenameUser B w old new).1.log = w.log ++ [Event.query (Query.roleExists old)] ∧
      (RenameUser B w old new).1.db = (B.queryRow w.db (Query.roleExists old)).1 := by
    intro w h
    simp [RenameUser, World.queryRow, h]
  refine ⟨part1, ?_⟩
  intro law w hex hok
  have e1 : RenameUser B w old new =
      World.exec B { db := (B.queryRow w.db (Query.roleExists old)).1,
                     log := w.log ++ [Event.query (Query.roleExists old)] }
        Conn.admin (Stmt.renameUser old new) := by
    simp [RenameUser, World.queryRow, hex]
  have hs : (B.exec (B.queryRow w.db (Query.roleExists old)).1 Conn.admin
      (Stmt.renameUser old new)).2 = none := by
    rw [e1] at hok; exact hok
  have hgone := law _ hs
  have hdb : (RenameUser B w old new).1.db =
      (B.exec (B.queryRow w.db (Query.roleExists old)).1 Conn.admin
        (Stmt.renameUser old new)).1 := by
    rw [e1]; rfl
  have h2 := part1 (RenameUser B w old new).1 (by rw [hdb]; exact hgone)
  refine ⟨h2.1, ?_⟩
  rw [h2.2.1, execsOf_append]
  simp [execsOf]

/-- C5 (instance): on the reference server holding the role `app1`, a first
`RenameUser app1 app2` renames it, and a second one returns nil and issues
nothing; renaming a role that never existed is a no-op as well. -/
theorem RenameUser_absent_noop_witness :
    ((RenameUser pgBackend (World.start ⟨[], [], [], []⟩) "ghost" "app2").2 = none ∧
      (RenameUser pgBackend (World.start ⟨[], [], [], []⟩) "ghost" "app2").1.log
        = [] ++ [Event.query (Query.roleExists "ghost")] ∧
      (RenameUser pgBackend (World.start ⟨[], [], [], []⟩) "ghost" "app2").1.db
        = ⟨[], [], [], []⟩)
    ∧ execsOf (RenameUser pgBackend
        (World.start ⟨[], [⟨"app1", true, some "pw", [], none⟩], [], []⟩) "app1" "app2").1.log
        = [(Conn.admin, Stmt.renameUser "app1" "app2")]
    ∧ ((RenameUser pgBackend (RenameUser pgBackend
          (World.start ⟨[], [⟨"app1", true, some "pw", [], none⟩], [], []⟩)
          "app1" "app2").1 "app1" "app2").2 = none ∧
        execsOf (RenameUser pgBackend (RenameUser pgBackend
          (World.start ⟨[], [⟨"app1", true, some "pw", [], none⟩], [], []⟩)
          "app1" "app2").1 "app1" "app2").1.log
        = execsOf (RenameUser pgBackend
          (World.start ⟨[], [⟨"app1", true, some "pw", [], none⟩], [], []⟩)
          "app1" "app2").1.log) :=
  ⟨(RenameUser_absent_noop pgBackend "ghost" "app2").1 (World.start ⟨[], [], [], []⟩)
      (by decide),
    by decide,
    (RenameUser_absent_noop pgBackend "app1" "app2").2
      (fun t h => by
        have := pg_rename_removes_old t Conn.admin "app1" "app2" h
        simp [pgBackend, PgServer.queryRow, this])
      (World.start ⟨[], [⟨"app1", true, some "pw", [], none⟩], [], []⟩)
      (by decide) (by decide)⟩

/-- C6: if the login user already exists, `CreateUser` returns
(created = false, nil) and its only call to the server is the existence query:
no CREATE ROLE, no role binding and no change of password is issued, whatever
password was supplied. -/
theorem CreateUser_existing_noop {σ : Type} (B : Backend σ) (w : World σ)
    (username rolename userPassword : String)
    (h : (B.queryRow w.db (Query.userExists username)).2 = Except.ok true) :
    (CreateUser B w username rolename userPassword).2 = (false, none)
    ∧ (CreateUser B w username rolename userPassword).1.log
        = w.log ++ [Event.query (Query.userExists username)]
    ∧ (CreateUser B w username rolename userPassword).1.db
        = (B.queryRow w.db (Query.userExists username)).1
    ∧ execsOf (CreateUser B w username rolename userPassword).1.log = execsOf w.log := by
  have e : CreateUser B w username rolename userPassword =
      ({ db := (B.queryRow w.db (Query.userExists username)).1,
         log := w.log ++ [Event.query (Query.userExists username)] }, (false, none)) := by
    simp [CreateUser, World.queryRow, h]
  rw [e]
  simp [execsOf_append, execsOf]

/-- C6 (instance): on the reference server where `app1` logs in with password
`old`, `CreateUser app1 app1_role new` changes nothing: the catalog is the
same afterwards and the password is still `old`. -/
theorem CreateUser_existing_noop_witness :
    (pgBackend.queryRow
        (World.start (⟨[], [⟨"app1", true, some "old", [], none⟩], [], []⟩ : PgServer)).db
        (Query.userExists "app1")).2 = Except.ok true
    ∧ ((CreateUser pgBackend
          (World.start ⟨[], [⟨"app1", true, some "old", [], none⟩], [], []⟩)
          "app1" "app1_role" "new").2 = (false, none)
      ∧ (CreateUser pgBackend
          (World.start ⟨[], [⟨"app1", true, some "old", [], none⟩], [], []⟩)
          "app1" "app1_role" "new").1.log = [] ++ [Event.query (Query.userExists "app1")]
      ∧ (CreateUser pgBackend
          (World.start ⟨[], [⟨"app1", true, some "old", [], none⟩], [], []⟩)
          "app1" "app1_role" "new").1.db
          = (pgBackend.queryRow
              (World.start (⟨[], [⟨"app1", true, some "old", [], none⟩], [], []⟩ : PgServer)).db
              (Query.userExists "app1")).1
      ∧ execsOf (CreateUser pgBackend
          (World.start ⟨[], [⟨"app1", true, some "old", [], none⟩], [], []⟩)
          "app1" "app1_role" "new").1.log = execsOf [])
    ∧ (CreateUser pgBackend
          (World.start ⟨[], [⟨"app1", true, some "old", [], none⟩], [], []⟩)
          "app1" "app1_role" "new").1.db.hasPassword "app1" "old" = true
    ∧ (CreateUser pgBackend
          (World.start ⟨[], [⟨"app1", true, some "old", [], none⟩], [], []⟩)
          "app1" "app1_role" "new").1.db.hasPassword "app1" "new" = false :=
  ⟨by decide,
    CreateUser_existing_noop pgBackend
      (World.start ⟨[], [⟨"app1", true, some "old", [], none⟩], [], []⟩)
      "app1" "app1_role" "new" (by decide),
    by decide, by decide⟩

/-! ## `CreateDataBase` called twice -/

/-- C10 (as amended): `UpdateUser(old, new, role, password)`.  If the old user
does not exist, nil is returned and no statement is issued.  If it exists (the
existence query reports it and leaves the server as it is), the statements are
issued in the order rename old to new, bind new to role, set the password of
new, the last two on the new name; when a step fails its error is returned and
no later step is issued, so that the password statement is only ever issued
after both the rename and the binding have succeeded; the one exception is a
failure of the password statement whose message contains "already exists",
which is returned as nil.  The hypotheses only
name the answers of the server: `(t1, r1)`, `(t2, r2)` and `(t3, r3)` are the
state and the error after the rename, the binding and the password
statement. -/
theorem UpdateUser_sequence {σ : Type} (B : Backend σ) (w : World σ)
    (old new role pw : String) (t1 t2 t3 : σ) (r1 r2 r3 : Option GoError)
    (h1 : B.exec w.db Conn.admin (Stmt.renameUser old new) = (t1, r1))
    (h2 : B.exec t1 Conn.admin (Stmt.setRole new role) = (t2, r2))
    (h3 : B.exec t2 Conn.admin (Stmt.alterPassword new pw) = (t3, r3)) :
    ((B.queryRow w.db (Query.roleExists old)).2 = Except.ok false →
        (UpdateUser B w old new role pw).2 = none ∧
        execsOf (UpdateUser B w old new role pw).1.log = execsOf w.log ∧
        (UpdateUser B w old new role pw).1.db = (B.queryRow w.db (Query.roleExists old)).1)
    ∧ (B.queryRow w.db (Query.roleExists old) = (w.db, Except.ok true) →
        (∀ err, r1 = some err →
          (UpdateUser B w old new role pw).2 = some err ∧
          execsOf (UpdateUser B w old new role pw).1.log = execsOf w.log ++
            [(Conn.admin, Stmt.renameUser old new)])
        ∧ (r1 = none → ∀ err, r2 = some err →
          (UpdateUser B w old new role pw).2 = some err ∧
          execsOf (UpdateUser B w old new role pw).1.log = execsOf w.log ++
            [(Conn.admin, Stmt.renameUser old new), (Conn.admin, Stmt.setRole new role)])
        ∧ (r1 = none → r2 = none → pw = "" →
          (UpdateUser B w old new role pw).2 = some "an empty password" ∧
          execsOf (UpdateUser B w old new role pw).1.log = execsOf w.log ++
            [(Conn.admin, Stmt.renameUser old new), (Conn.admin, Stmt.setRole new role)])
        ∧ (r1 = none → r2 = none → pw ≠ "" →
          execsOf (UpdateUser B w old new role pw).1.log = execsOf w.log ++
            [(Conn.admin, Stmt.renameUser old new), (Conn.admin, Stmt.setRole new role),
              (Conn.admin, Stmt.alterPassword new pw)] ∧
          (UpdateUser B w old new role pw).1.db = t3 ∧
          (∀ err, r3 = some err → stringsContains err "already exists" = false →
            (UpdateUser B w old new role pw).2 = some err) ∧
          (∀ err, r3 = some err → stringsContains err "already exists" = true →
            (UpdateUser B w old new role pw).2 = none) ∧
          (r3 = none → (UpdateUser B w old new role pw).2 = none))) := by
  constructor
  · intro hq
    simp [UpdateUser, World.queryRow, hq, execsOf_append, execsOf]
  · intro hq
    have q1 : (B.queryRow w.db (Query.roleExists old)).1 = w.db := by rw [hq]
    have q2 : (B.queryRow w.db (Query.roleExists old)).2 = Except.ok true := by rw [hq]
    have e1 : (B.exec w.db Conn.admin (Stmt.renameUser old new)).1 = t1 := by rw [h1]
    have e1r : (B.exec w.db Conn.admin (Stmt.renameUser old new)).2 = r1 := by rw [h1]
    have e2 : (B.exec t1 Conn.admin (Stmt.setRole new role)).1 = t2 := by rw [h2]
    have e2r : (B.exec t1 Conn.admin (Stmt.setRole new role)).2 = r2 := by rw [h2]
    have e3 : (B.exec t2 Conn.admin (Stmt.alterPassword new pw)).1 = t3 := by rw [h3]
    have e3r : (B.exec t2 Conn.admin (Stmt.alterPassword new pw)).2 = r3 := by rw [h3]
    refine ⟨?_, ?_, ?_, ?_⟩
    · intro err hr
      subst hr
      simp [UpdateUser, RenameUser, World.queryRow, World.exec, q1, q2, e1, e1r,
        execsOf_append, execsOf]
    · intro hr1 err hr2
      subst hr1 hr2
      simp [UpdateUser, RenameUser, setGroup, World.queryRow, World.exec, World.emit, q1, q2,
        e1, e1r, e2, e2r, execsOf_append, execsOf]
    · intro hr1 hr2 hp
      subst hr1 hr2 hp
      simp [UpdateUser, RenameUser, setGroup, UpdatePassword, World.queryRow, World.exec,
        World.emit, q1, q2, e1, e1r, e2, e2r, execsOf_append, execsOf]
    · intro hr1 hr2 hp
      subst hr1 hr2
      refine ⟨?_, ?_, ?_, ?_, ?_⟩
      · cases r3 with
        | none =>
          simp [UpdateUser, RenameUser, setGroup, UpdatePassword, World.queryRow, World.exec,
            World.emit, q1, q2, e1, e1r, e2, e2r, e3, e3r, hp, execsOf_append, execsOf]
        | some err =>
          cases hc : stringsContains err "already exists" <;>
          simp [UpdateUser, RenameUser, setGroup, UpdatePassword, World.queryRow, World.exec,
            World.emit, q1, q2, e1, e1r, e2, e2r, e3, e3r, hp, hc, execsOf_append, execsOf]
      · cases r3 with
        | none =>
          simp [UpdateUser, RenameUser, setGroup, UpdatePassword, World.queryRow, World.exec,
            World.emit, q1, q2, e1, e1r, e2, e2r, e3, e3r, hp]
        | some err =>
          cases hc : stringsContains err "already exists" <;>
          simp [UpdateUser, RenameUser, setGroup, UpdatePassword, World.queryRow, World.exec,
            World.emit, q1, q2, e1, e1r, e2, e2r, e3, e3r, hp, hc]
      · intro err hr3 hc
        subst hr3
        simp [UpdateUser, RenameUser, setGroup, UpdatePassword, World.queryRow, World.exec,
          World.emit, q1, q2, e1, e1r, e2, e2r, e3, e3r, hp, hc]
      · intro err hr3 hc
        subst hr3
        simp [UpdateUser, RenameUser, setGroup, UpdatePassword, World.queryRow, World.exec,
          World.emit, q1, q2, e1, e1r, e2, e2r, e3, e3r, hp, hc]
      · intro hr3
        subst hr3
        simp [UpdateUser, RenameUser, setGroup, UpdatePassword, World.queryRow, World.exec,
          World.emit, q1, q2, e1, e1r, e2, e2r, e3, e3r, hp]

/-- C10 (instance): on the reference server holding the login role `app1` and
the role `app_role`, `UpdateUser app1 app2 app_role new-secret` returns nil
after the three statements in order, and `app2` then is bound to `app_role`
and has the new password; when `app2` exists already, the rename fails, its
error is returned and nothing else is issued. -/
theorem UpdateUser_sequence_witness :
    ((UpdateUser pgBackend
        (World.start ⟨[], [⟨"app1", true, some "old-secret", ["app_role"], none⟩,
          ⟨"app_role", false, none, [], none⟩], [], []⟩)
        "app1" "app2" "app_role" "new-secret").2 = none
      ∧ execsOf (UpdateUser pgBackend
        (World.start ⟨[], [⟨"app1", true, some "old-secret", ["app_role"], none⟩,
          ⟨"app_role", false, none, [], none⟩], [], []⟩)
        "app1" "app2" "app_role" "new-secret").1.log
        = [] ++ [(Conn.admin, Stmt.renameUser "app1" "app2"),
            (Conn.admin, Stmt.setRole "app2" "app_role"),
            (Conn.admin, Stmt.alterPassword "app2" "new-secret")]
      ∧ (UpdateUser pgBackend
        (World.start ⟨[], [⟨"app1", true, some "old-secret", ["app_role"], none⟩,
          ⟨"app_role", false, none, [], none⟩], [], []⟩)
        "app1" "app2" "app_role" "new-secret").1.db
        = ⟨[], [⟨"app2", true, some "new-secret", ["app_role"], some "app_role"⟩,
          ⟨"app_role", false, none, [], none⟩], [], []⟩)
    ∧ ((UpdateUser pgBackend
        (World.start ⟨[], [⟨"app1", true, some "old-secret", [], none⟩,
          ⟨"app2", true, some "other", [], none⟩], [], []⟩)
        "app1" "app2" "app_role" "new-secret").2 = some "pq: role \"app2\" already exists"
      ∧ execsOf (UpdateUser pgBackend
        (World.start ⟨[], [⟨"app1", true, some "old-secret", [], none⟩,
          ⟨"app2", true, some "other", [], none⟩], [], []⟩)
        "app1" "app2" "app_role" "new-secret").1.log
        = [] ++ [(Conn.admin, Stmt.renameUser "app1" "app2")]) :=
  ⟨⟨(((UpdateUser_sequence pgBackend
        (World.start ⟨[], [⟨"app1", true, some "old-secret", ["app_role"], none⟩,
          ⟨"app_role", false, none, [], none⟩], [], []⟩)
        "app1" "app2" "app_role" "new-secret"
        ⟨[], [⟨"app2", true, some "old-secret", ["app_role"], none⟩,
          ⟨"app_role", false, none, [], none⟩], [], []⟩
        ⟨[], [⟨"app2", true, some "old-secret", ["app_role"], some "app_role"⟩,
          ⟨"app_role", false, none, [], none⟩], [], []⟩
        ⟨[], [⟨"app2", true, some "new-secret", ["app_role"], some "app_role"⟩,
          ⟨"app_role", false, none, [], none⟩], [], []⟩
        none none none (by decide) (by decide) (by decide)).2 (by decide)).2.2.2
          rfl rfl (by decide)).2.2.2.2 rfl,
      (((UpdateUser_sequence pgBackend
        (World.start ⟨[], [⟨"app1", true, some "old-secret", ["app_role"], none⟩,
          ⟨"app_role", false, none, [], none⟩], [], []⟩)
        "app1" "app2" "app_role" "new-secret"
        ⟨[], [⟨"app2", true, some "old-secret", ["app_role"], none⟩,
          ⟨"app_role", false, none, [], none⟩], [], []⟩
        ⟨[], [⟨"app2", true, some "old-secret", ["app_role"], some "app_role"⟩,
          ⟨"app_role", false, none, [], none⟩], [], []⟩
        ⟨[], [⟨"app2", true, some "new-secret", ["app_role"], some "app_role"⟩,
          ⟨"app_role", false, none, [], none⟩], [], []⟩
        none none none (by decide) (by decide) (by decide)).2 (by decide)).2.2.2
          rfl rfl (by decide)).1,
      by decide⟩,
    ((UpdateUser_sequence pgBackend
        (World.start ⟨[], [⟨"app1", true, some "old-secret", [], none⟩,
          ⟨"app2", true, some "other", [], none⟩], [], []⟩)
        "app1" "app2" "app_role" "new-secret"
        ⟨[], [⟨"app1", true, some "old-secret", [], none⟩,
          ⟨"app2", true, some "other", [], none⟩], [], []⟩
        ⟨[], [⟨"app1", true, some "old-secret", [], none⟩,
          ⟨"app2", true, some "other", [], some "app_role"⟩], [], []⟩
        ⟨[], [⟨"app1", true, some "old-secret", [], none⟩,
          ⟨"app2", true, some "new-secret", [], some "app_role"⟩], [], []⟩
        (some "pq: role \"app2\" already exists") none none
        (by decide) (by decide) (by decide)).2 (by decide)).1
      "pq: role \"app2\" already exists" rfl⟩

/-- C10 (counterexample): on a server where `app1` exists, the rename and the
binding succeed and the password statement fails with
`pq: role "app2" already exists`, `UpdateUser` issues the three statements and
returns nil: the failure of the last step is not returned. -/
theorem UpdateUser_swallows_already_exists :
    (scriptedBackend.exec [Sum.inr "pq: role \"app2\" already exists"] Conn.admin
        (Stmt.alterPassword "app2" "s3cret")).2 = some "pq: role \"app2\" already exists"
    ∧ execsOf (UpdateUser scriptedBackend
        (World.start [Sum.inl true, Sum.inl true, Sum.inl true, Sum.inl true,
          Sum.inr "pq: role \"app2\" already exists"])
        "app1" "app2" "app_role" "s3cret").1.log
        = [(Conn.admin, Stmt.renameUser "app1" "app2"),
            (Conn.admin, Stmt.setRole "app2" "app_role"),
            (Conn.admin, Stmt.alterPassword "app2" "s3cret")]
    ∧ (UpdateUser scriptedBackend
        (World.start [Sum.inl true, Sum.inl true, Sum.inl true, Sum.inl true,
          Sum.inr "pq: role \"app2\" already exists"])
        "app1" "app2" "app_role" "s3cret").2 = none
    ∧ (UpdateUser scriptedBackend
        (World.start [Sum.inl true, Sum.inl true, Sum.inl true, Sum.inl true,
          Sum.inr "pq: role \"app2\" already exists"])
        "app1" "app2" "app_role" "s3cret").2 ≠ some "pq: role \"app2\" already exists" := by
  decide

/-! ## `UpdateUser` after a partial completion -/

/-- C7 (as amended): on a server where a role renamed away is gone under its
old name, if a first `UpdateUser(old, new, role, password)` stops after the
rename to new took effect and before the role binding and the password were
applied, then re-running `UpdateUser` with the same arguments returns nil
after its existence query alone: no statement is issued, so none of the
remaining sub-steps is performed. -/
theorem UpdateUser_rerun_after_rename {σ : Type} (B : Backend σ)
    (old new role pw : String) (t : σ) (log : List Event)
    (law : ∀ s, (B.exec s Conn.admin (Stmt.renameUser old new)).2 = none →
      (B.queryRow (B.exec s Conn.admin (Stmt.renameUser old new)).1
        (Query.roleExists old)).2 = Except.ok false)
    (hren : (B.exec t Conn.admin (Stmt.renameUser old new)).2 = none) :
    (UpdateUser B { db := (B.exec t Conn.admin (Stmt.renameUser old new)).1, log := log }
        old new role pw).2 = none
    ∧ (UpdateUser B { db := (B.exec t Conn.admin (Stmt.renameUser old new)).1, log := log }
        old new role pw).1.log = log ++ [Event.query (Query.roleExists old)]
    ∧ (UpdateUser B { db := (B.exec t Conn.admin (Stmt.renameUser old new)).1, log := log }
        old new role pw).1.db
        = (B.queryRow (B.exec t Conn.admin (Stmt.renameUser old new)).1
            (Query.roleExists old)).1 := by
  have h := law t hren
  simp [UpdateUser, World.queryRow, h]

/-- C7 (instance): on the reference server, after the rename of `app1` to
`app2` alone has taken effect, re-running
`UpdateUser app1 app2 app_role new-secret` returns nil, issues nothing and
leaves the catalog as it was. -/
theorem UpdateUser_rerun_after_rename_witness :
    (pgBackend.exec ⟨[], [⟨"app1", true, some "old-secret", [], none⟩,
        ⟨"app_role", false, none, [], none⟩], [], []⟩
      Conn.admin (Stmt.renameUser "app1" "app2")).2 = none
    ∧ ((UpdateUser pgBackend
          { db := (pgBackend.exec ⟨[], [⟨"app1", true, some "old-secret", [], none⟩,
              ⟨"app_role", false, none, [], none⟩], [], []⟩
              Conn.admin (Stmt.renameUser "app1" "app2")).1, log := [] }
          "app1" "app2" "app_role" "new-secret").2 = none
      ∧ (UpdateUser pgBackend
          { db := (pgBackend.exec ⟨[], [⟨"app1", true, some "old-secret", [], none⟩,
              ⟨"app_role", false, none, [], none⟩], [], []⟩
              Conn.admin (Stmt.renameUser "app1" "app2")).1, log := [] }
          "app1" "app2" "app_role" "new-secret").1.log
          = [] ++ [Event.query (Query.roleExists "app1")]
      ∧ (UpdateUser pgBackend
          { db := (pgBackend.exec ⟨[], [⟨"app1", true, some "old-secret", [], none⟩,
              ⟨"app_role", false, none, [], none⟩], [], []⟩
              Conn.admin (Stmt.renameUser "app1" "app2")).1, log := [] }
          "app1" "app2" "app_role" "new-secret").1.db
          = (pgBackend.queryRow
              (pgBackend.exec ⟨[], [⟨"app1", true, some "old-secret", [], none⟩,
                ⟨"app_role", false, none, [], none⟩], [], []⟩
                Conn.admin (Stmt.renameUser "app1" "app2")).1
              (Query.roleExists "app1")).1) :=
  ⟨by decide,
    UpdateUser_rerun_after_rename pgBackend "app1" "app2" "app_role" "new-secret"
      ⟨[], [⟨"app1", true, some "old-secret", [], none⟩,
        ⟨"app_role", false, none, [], none⟩], [], []⟩ []
      (fun s h => by
        have := pg_rename_removes_old s Conn.admin "app1" "app2" h
        simp [pgBackend, PgServer.queryRow, this])
      (by decide)⟩

/-- C7 (counterexample): the reference server holds the login role `app1` with
password `old-secret` and the role `app_role`; the rename of `app1` to `app2`
has taken effect and nothing else.  Re-running
`UpdateUser app1 app2 app_role new-secret` returns nil without issuing a
statement, and afterwards `app2` is neither bound to `app_role` nor has the
password `new-secret`. -/
theorem UpdateUser_rerun_does_not_recover :
    "app1" ≠ "app2" ∧ "new-secret" ≠ ""
    ∧ (pgBackend.exec ⟨[], [⟨"app1", true, some "old-secret", [], none⟩,
          ⟨"app_role", false, none, [], none⟩], [], []⟩
        Conn.admin (Stmt.renameUser "app1" "app2"))
        = (⟨[], [⟨"app2", true, some "old-secret", [], none⟩,
            ⟨"app_role", false, none, [], none⟩], [], []⟩, none)
    ∧ (UpdateUser pgBackend
        (World.start ⟨[], [⟨"app2", true, some "old-secret", [], none⟩,
          ⟨"app_role", false, none, [], none⟩], [], []⟩)
        "app1" "app2" "app_role" "new-secret").2 = none
    ∧ execsOf (UpdateUser pgBackend
        (World.start ⟨[], [⟨"app2", true, some "old-secret", [], none⟩,
          ⟨"app_role", false, none, [], none⟩], [], []⟩)
        "app1" "app2" "app_role" "new-secret").1.log = []
    ∧ ¬ ((UpdateUser pgBackend
        (World.start ⟨[], [⟨"app2", true, some "old-secret", [], none⟩,
          ⟨"app_role", false, none, [], none⟩], [], []⟩)
        "app1" "app2" "app_role" "new-secret").1.db.boundTo "app2" "app_role" = true
      ∧ (UpdateUser pgBackend
        (World.start ⟨[], [⟨"app2", true, some "old-secret", [], none⟩,
          ⟨"app_role", false, none, [], none⟩], [], []⟩)
        "app1" "app2" "app_role" "new-secret").1.db.hasPassword "app2" "new-secret" = true) := by
  decide

/-! ## The metrics -/

/-- C8 (the code at the failing inputs): when the existence query of
`CreateDataBase` fails, the error is returned and the counter
`DBProvisioningErrors` labelled "read error" is looked up but not incremented,
and likewise for "create error" when `create database` fails, whereas
`CreateUser` counts its read error once.  When the role binding of `UpdateUser`
fails, the counter incremented is `UsersCreatedErrors`, not
`UsersUpdatedErrors`; when its rename fails, no metric is touched at all. -/
theorem metrics_error_counters_missed :
    (CreateDataBase (downBackend "dial tcp: connection refused") (World.start ())
        "tenant1").2 = (false, some "dial tcp: connection refused")
    ∧ (CreateDataBase (downBackend "dial tcp: connection refused") (World.start ())
        "tenant1").1.log
        = [Event.query (Query.databaseExists "tenant1"),
            Event.metric (MetricOp.withLabelValues Counter.DBProvisioningErrors "read error")]
    ∧ counterValue (CreateDataBase (downBackend "dial tcp: connection refused")
        (World.start ()) "tenant1").1.log Counter.DBProvisioningErrors (some "read error") = 0
    ∧ counterValue (CreateUser (downBackend "dial tcp: connection refused")
        (World.start ()) "app1" "app_role" "s3cret").1.log
        Counter.UsersCreatedErrors (some "read error") = 1
    ∧ (CreateDataBase scriptedBackend
        (World.start [Sum.inl false, Sum.inr "pq: permission denied to create database"])
        "tenant1").2 = (false, some "pq: permission denied to create database")
    ∧ counterValue (CreateDataBase scriptedBackend
        (World.start [Sum.inl false, Sum.inr "pq: permission denied to create database"])
        "tenant1").1.log Counter.DBProvisioningErrors (some "create error") = 0
    ∧ (UpdateUser scriptedBackend
        (World.start [Sum.inl true, Sum.inl true, Sum.inl true, Sum.inr "pq: permission denied"])
        "app1" "app2" "app_role" "s3cret").2 = some "pq: permission denied"
    ∧ counterValue (UpdateUser scriptedBackend
        (World.start [Sum.inl true, Sum.inl true, Sum.inl true, Sum.inr "pq: permission denied"])
        "app1" "app2" "app_role" "s3cret").1.log
        Counter.UsersUpdatedErrors (some "grant error") = 0
    ∧ counterValue (UpdateUser scriptedBackend
        (World.start [Sum.inl true, Sum.inl true, Sum.inl true, Sum.inr "pq: permission denied"])
        "app1" "app2" "app_role" "s3cret").1.log
        Counter.UsersCreatedErrors (some "grant error") = 1
    ∧ (UpdateUser scriptedBackend
        (World.start [Sum.inl true, Sum.inl true, Sum.inr "pq: permission denied"])
        "app1" "app2" "app_role" "s3cret").2 = some "pq: permission denied"
    ∧ (UpdateUser scriptedBackend
        (World.start [Sum.inl true, Sum.inl true, Sum.inr "pq: permission denied"])
        "app1" "app2" "app_role" "s3cret").1.log
        = [Event.query (Query.roleExists "app1"), Event.query (Query.roleExists "app1"),
            Event.exec Conn.admin (Stmt.renameUser "app1" "app2")] := by
  decide

/-! ## The password policy -/

theorem generatePassword_disabled (defaultPassLen : Nat) (rnd : Nat → Nat) (p : PasswordPolicy)
    (h : p.complexityEnabled = false) :
    generatePassword defaultPassLen rnd p
      = Except.ok ((List.range defaultPassLen).map (fun i =>
          pick (upperChars ++ lowerChars ++ digitChars) (rnd i))) := by
  simp [generatePassword, h]

theorem generatePassword_enabled (defaultPassLen : Nat) (rnd : Nat → Nat) (p : PasswordPolicy)
    (h : p.complexityEnabled = true) (hl : 4 ≤ p.minPasswordLength) :
    generatePassword defaultPassLen rnd p
      = Except.ok ([pick upperChars (rnd 0), pick lowerChars (rnd 1), pick digitChars (rnd 2),
          pick symbolChars (rnd 3)] ++
        (List.range (p.minPasswordLength - 4)).map (fun i =>
          pick (upperChars ++ lowerChars ++ digitChars ++ symbolChars) (rnd (i + 4)))) := by
  have hn : ¬ p.minPasswordLength < 4 := by omega
  simp only [generatePassword, h, if_true, if_neg hn]

/-- C9 (as amended): for every password policy `generatePassword` returns,
when `passwordComplexity` is disabled, without error a password of the fixed
default length `defaultPassLen`, regardless of `minPasswordLength`; when it is
enabled and `minPasswordLength` is at least 4, without error a password of
exactly `minPasswordLength` characters; and when it is enabled with a smaller
`minPasswordLength`, the error `PolicyViolation`.  With `minPasswordLength` 15
the length is 15 when enabled and `defaultPassLen` when disabled. -/
theorem generatePassword_length (defaultPassLen : Nat) (rnd : Nat → Nat) (p : PasswordPolicy) :
    (p.complexityEnabled = false →
      ∃ pw, generatePassword defaultPassLen rnd p = Except.ok pw ∧ pw.length = defaultPassLen)
    ∧ (p.complexityEnabled = true → 4 ≤ p.minPasswordLength →
      ∃ pw, generatePassword defaultPassLen rnd p = Except.ok pw ∧
        pw.length = p.minPasswordLength)
    ∧ (p.complexityEnabled = true → p.minPasswordLength < 4 →
      generatePassword defaultPassLen rnd p = Except.error PasswordError.PolicyViolation)
    ∧ (∃ pw, generatePassword defaultPassLen rnd ⟨true, 15⟩ = Except.ok pw ∧ pw.length = 15)
    ∧ (∃ pw, generatePassword defaultPassLen rnd ⟨false, 15⟩ = Except.ok pw ∧
        pw.length = defaultPassLen) := by
  refine ⟨?_, ?_, ?_, ?_, ?_⟩
  · intro h
    exact ⟨_, generatePassword_disabled defaultPassLen rnd p h, by simp⟩
  · intro h hl
    refine ⟨_, generatePassword_enabled defaultPassLen rnd p h hl, ?_⟩
    simp only [List.length_append, List.length_cons, List.length_nil, List.length_map,
      List.length_range]
    omega
  · intro h hl
    simp [generatePassword, h, hl]
  · exact ⟨_, generatePassword_enabled defaultPassLen rnd ⟨true, 15⟩ rfl (by decide), by simp⟩
  · exact ⟨_, generatePassword_disabled defaultPassLen rnd ⟨false, 15⟩ rfl, by simp⟩

/-- C9 (instance): with the default length 25 and a constant random source,
the policy (enabled, 15) gives a password of 15 characters and the policy
(disabled, 15) one of 25. -/
theorem generatePassword_length_witness :
    (generatePassword 25 (fun _ => 0) ⟨true, 15⟩).map List.length = Except.ok 15
    ∧ (generatePassword 25 (fun _ => 0) ⟨false, 15⟩).map List.length = Except.ok 25
    ∧ (∃ pw, generatePassword 25 (fun _ => 0) ⟨true, 15⟩ = Except.ok pw ∧ pw.length = 15) :=
  ⟨by decide, by decide, (generatePassword_length 25 (fun _ => 0) ⟨true, 15⟩).2.1 rfl (by decide)⟩

/-- C9 (counterexample): for the policy with complexity enabled and
`minPasswordLength` 3 the call does not return a password: it fails with
`PolicyViolation`. -/
theorem generatePassword_policy_violation :
    generatePassword 25 (fun _ => 0) ⟨true, 3⟩ = Except.error PasswordError.PolicyViolation
    ∧ ¬ ∃ pw, generatePassword 25 (fun _ => 0) ⟨true, 3⟩ = Except.ok pw ∧ pw.length = 3 := by
  refine ⟨by decide, ?_⟩
  rintro ⟨pw, h, _⟩
  have e : generatePassword 25 (fun _ => 0) ⟨true, 3⟩
      = Except.error PasswordError.PolicyViolation := by decide
  rw [e] at h
  cases h

end DbController
